import Mathlib

/-!
Verification of the solitaire rules engine (`rules.py`) and the greedy
Klondike solver (`scripts/solver.py`).

The Python code is shallowly embedded: Python values that flow through the
duck-typed rules API are modelled by the inductive `PyVal` (floats are
modelled by their observable behaviour: NaN, signed infinity, or an exact
rational value), mappings by association lists, and raising code by
`Except PyErr`.
-/

/-- Observable model of a Python float: NaN, a signed infinity, or a finite
value represented exactly as a rational. -/
inductive PyFloat where
  | nan : PyFloat
  | inf (neg : Bool) : PyFloat
  | rat (q : Rat) : PyFloat
deriving DecidableEq, Repr

/-- Model of the Python values the rules engine inspects. -/
inductive PyVal where
  | none : PyVal
  | bool (b : Bool) : PyVal
  | int (n : Int) : PyVal
  | float (f : PyFloat) : PyVal
  | str (s : String) : PyVal
deriving DecidableEq, Repr

/-- Exception classes raised by the embedded code. -/
inductive PyErr where
  | typeError : PyErr
  | valueError : PyErr
  | attributeError : PyErr
deriving DecidableEq, Repr

/-- A Python mapping (dict), modelled as an association list with the first
binding of a key the authoritative one. -/
abbrev PyDict := List (String × PyVal)

/-- ASCII lowering of one character; agrees with Python `.lower()` on the
ASCII strings the engine compares against. -/
def charLower (c : Char) : Char :=
  if 65 ≤ c.toNat ∧ c.toNat ≤ 90 then Char.ofNat (c.toNat + 32) else c

/-- Python `str.lower()` (ASCII fragment). -/
def strLower (s : String) : String := String.mk (s.data.map charLower)

/-- The characters Python `str.strip()` removes. -/
def isPySpace (c : Char) : Bool := c.toNat ∈ [9, 10, 11, 12, 13, 32]

/-- Python `str.strip()`. -/
def strStrip (s : String) : String :=
  String.mk (((s.data.dropWhile isPySpace).reverse.dropWhile isPySpace).reverse)

/-- `_get_value(obj, key)` with the implicit `default=None`: mapping `.get`
with fallback `None`.  (The attribute-object branch of `_get_value` has the
same lookup semantics and is represented by the same mapping model.) -/
def get_value (obj : PyDict) (key : String) : PyVal :=
  (List.lookup key obj).getD PyVal.none

/-- `_get_value(obj, key, default)` with an explicit default. -/
def get_value_d (obj : PyDict) (key : String) (default : PyVal) : PyVal :=
  (List.lookup key obj).getD default

/-- Python truthiness for the modelled values. -/
def pyTruthy : PyVal → Bool
  | PyVal.none => false
  | PyVal.bool b => b
  | PyVal.int n => decide (n ≠ 0)
  | PyVal.float PyFloat.nan => true
  | PyVal.float (PyFloat.inf _) => true
  | PyVal.float (PyFloat.rat q) => decide (q ≠ 0)
  | PyVal.str s => decide (s ≠ "")

/-- Python `a or b`: `a` if truthy, else `b`. -/
def pyOr (a b : PyVal) : PyVal :=
  if pyTruthy a then a else b

/-- `.lower()` on a value: succeeds on strings, raises `AttributeError`
otherwise. -/
def pyLower (v : PyVal) : Except PyErr String :=
  match v with
  | PyVal.str s => Except.ok (strLower s)
  | _ => Except.error PyErr.attributeError

/-- Python `value == n` for an `int` right-hand side (`bool` compares as
0/1, NaN and infinities never equal an int, strings and `None` are simply
unequal). -/
def pyEqInt (v : PyVal) (n : Int) : Bool :=
  match v with
  | PyVal.int m => decide (m = n)
  | PyVal.bool b => decide ((if b then (1 : Int) else 0) = n)
  | PyVal.float PyFloat.nan => false
  | PyVal.float (PyFloat.inf _) => false
  | PyVal.float (PyFloat.rat q) => decide (q = (n : Rat))
  | _ => false

/-- Python `value < n` for an `int` right-hand side; comparing a string or
`None` against an int raises `TypeError`. -/
def pyLtInt (v : PyVal) (n : Int) : Except PyErr Bool :=
  match v with
  | PyVal.int m => Except.ok (decide (m < n))
  | PyVal.bool b => Except.ok (decide ((if b then (1 : Int) else 0) < n))
  | PyVal.float PyFloat.nan => Except.ok false
  | PyVal.float (PyFloat.inf neg) => Except.ok neg
  | PyVal.float (PyFloat.rat q) => Except.ok (decide (q < (n : Rat)))
  | _ => Except.error PyErr.typeError

/-- Python `value > 0`; strings and `None` raise `TypeError`. -/
def pyGtZero (v : PyVal) : Except PyErr Bool :=
  match v with
  | PyVal.int m => Except.ok (decide (0 < m))
  | PyVal.bool b => Except.ok b
  | PyVal.float PyFloat.nan => Except.ok false
  | PyVal.float (PyFloat.inf neg) => Except.ok (!neg)
  | PyVal.float (PyFloat.rat q) => Except.ok (decide (0 < q))
  | _ => Except.error PyErr.typeError

/-- Python `max(0, 1 - v) > 0` as evaluated in the undo branch of
`is_move_legal` (`max(a, b)` returns `b` only when `b > a`, so
`max(0, nan) = 0`); non-numeric `v` raises `TypeError` from `1 - v`. -/
def pyOneSubMaxZeroGtZero (v : PyVal) : Except PyErr Bool :=
  match v with
  | PyVal.int m => Except.ok (decide (0 < max 0 (1 - m)))
  | PyVal.bool b => Except.ok (decide (0 < max 0 (1 - (if b then (1 : Int) else 0))))
  | PyVal.float PyFloat.nan => Except.ok false
  | PyVal.float (PyFloat.inf neg) => Except.ok neg
  | PyVal.float (PyFloat.rat q) => Except.ok (decide (0 < max 0 (1 - q)))
  | _ => Except.error PyErr.typeError

/-- Digit run to a natural number; `Option.none` if empty or any non-digit. -/
def digitsVal : List Char → Option Nat
  | [] => Option.none
  | c :: rest =>
    if c.isDigit then
      match rest with
      | [] => some (c.toNat - 48)
      | _ =>
        match digitsVal rest with
        | Option.none => Option.none
        | some n =>
          -- value of the remaining digits appended after this digit
          some ((c.toNat - 48) * 10 ^ rest.length + n)
    else Option.none

/-- Python `int(token, 10)` on an already-stripped token: optional sign
followed by a digit run. -/
def parseInt10 (s : String) : Option Int :=
  match s.toList with
  | [] => Option.none
  | c :: rest =>
    if c = '+' then (digitsVal rest).map (fun n => (n : Int))
    else if c = '-' then (digitsVal rest).map (fun n => -(n : Int))
    else (digitsVal (c :: rest)).map (fun n => (n : Int))

/-- Truncation toward zero of a rational, the behaviour of Python
`int(float)` on a finite float. -/
def pyTrunc (q : Rat) : Int :=
  if q < 0 then -((-q).floor) else q.floor

/-- The `PASS_LIMITS` lookup table (`some` = key present; the payload is the
normalised limit, `Option.none` meaning unlimited). -/
def PASS_LIMITS : String → Option (Option Int)
  | "unlimited" => some Option.none
  | "infinite" => some Option.none
  | "max_relax" => some Option.none
  | "three" => some (some 3)
  | "triple" => some (some 3)
  | "one" => some (some 1)
  | "single" => some (some 1)
  | "none" => some (some 0)
  | _ => Option.none

/-- The `SUPERMOVE_STRENGTH` lookup table. -/
def SUPERMOVE_STRENGTH : String → Option Int
  | "none" => some 0
  | "standard" => some 1
  | "relaxed" => some 2
  | _ => Option.none

/-- `_coerce_non_negative_int(value, default)`. -/
def coerce_non_negative_int (value : PyVal) (default : Int) : Int :=
  match value with
  | PyVal.none => default
  | PyVal.bool _ => default
  | PyVal.int n => if 0 ≤ n then n else default
  | PyVal.float PyFloat.nan => default
  | PyVal.float (PyFloat.inf _) => default
  | PyVal.float (PyFloat.rat q) =>
    let candidate := pyTrunc q
    if 0 ≤ candidate then candidate else default
  | PyVal.str s =>
    let token := strStrip s
    if token = "" then default
    else
      match parseInt10 token with
      | Option.none => default
      | some candidate => if 0 ≤ candidate then candidate else default

/-- `_normalise_pass_limit(value)`.  The final `TypeError` branch of the
source covers every type that is not `None`/`bool`/`int`/`str`; of the
modelled values those are exactly the floats. -/
def normalise_pass_limit (value : PyVal) : Except PyErr (Option Int) :=
  match value with
  | PyVal.none => Except.ok Option.none
  | PyVal.bool _ => Except.error PyErr.typeError
  | PyVal.int n =>
    if n < 0 then Except.error PyErr.valueError else Except.ok (some n)
  | PyVal.str s =>
    let token := strLower (strStrip s)
    if token = "" then Except.ok Option.none
    else
      match PASS_LIMITS token with
      | some v => Except.ok v
      | Option.none =>
        match parseInt10 token with
        | Option.none => Except.error PyErr.valueError
        | some parsed =>
          if parsed < 0 then Except.error PyErr.valueError
          else Except.ok (some parsed)
  | PyVal.float _ => Except.error PyErr.typeError

/-- The frozen dataclass `RuleProfile`.  Field types follow the dataclass
annotations (`draw: int`, `passes: str | int | None` kept as a raw value,
`supermove: str`, four booleans). -/
structure RuleProfile where
  draw : Int
  passes : PyVal
  supermove : String
  foundation_takeback : Bool
  peek_xray : Bool
  autoplay_safe_only : Bool
  undo_unlimited : Bool
deriving DecidableEq, Repr

/-- The seven dataclass field names. -/
def ruleProfileFields : List String :=
  ["draw", "passes", "supermove", "foundation_takeback", "peek_xray",
   "autoplay_safe_only", "undo_unlimited"]

/-- `RuleProfile.to_dict`. -/
def RuleProfile.to_dict (p : RuleProfile) : PyDict :=
  [("draw", PyVal.int p.draw),
   ("passes", p.passes),
   ("supermove", PyVal.str p.supermove),
   ("foundation_takeback", PyVal.bool p.foundation_takeback),
   ("peek_xray", PyVal.bool p.peek_xray),
   ("autoplay_safe_only", PyVal.bool p.autoplay_safe_only),
   ("undo_unlimited", PyVal.bool p.undo_unlimited)]

/-- `RuleProfile.from_dict`: keeps only recognised field names and calls the
dataclass constructor, which requires all seven fields; the values must fit
the dataclass field types. -/
def RuleProfile.from_dict (data : PyDict) : Option RuleProfile := do
  let drawV ← List.lookup "draw" data
  let passesV ← List.lookup "passes" data
  let supermoveV ← List.lookup "supermove" data
  let ftV ← List.lookup "foundation_takeback" data
  let pxV ← List.lookup "peek_xray" data
  let asoV ← List.lookup "autoplay_safe_only" data
  let uuV ← List.lookup "undo_unlimited" data
  match drawV, supermoveV, ftV, pxV, asoV, uuV with
  | PyVal.int d, PyVal.str sm, PyVal.bool ft, PyVal.bool px, PyVal.bool aso,
    PyVal.bool uu =>
    some { draw := d, passes := passesV, supermove := sm,
           foundation_takeback := ft, peek_xray := px,
           autoplay_safe_only := aso, undo_unlimited := uu }
  | _, _, _, _, _, _ => Option.none

/-- `RuleProfile.to_json`: `json.dumps` of a flat mapping; the JSON document
is modelled by the mapping itself (`dumps`/`loads` on such a mapping is a
bijection). -/
def RuleProfile.to_json (p : RuleProfile) : PyDict := p.to_dict

/-- `RuleProfile.from_json`: `from_dict` after `json.loads`. -/
def RuleProfile.from_json (payload : PyDict) : Option RuleProfile :=
  RuleProfile.from_dict payload

/-- The `pass_limit` property. -/
def RuleProfile.pass_limit (p : RuleProfile) : Except PyErr (Option Int) :=
  normalise_pass_limit p.passes

/-- The loop in `passes_remaining` reading the first non-`None` value of the
keys `passes_made`, `stock_passes`, `pass_count`. -/
def lookupPassesValue (state : PyDict) : PyVal :=
  match get_value state "passes_made" with
  | PyVal.none =>
    match get_value state "stock_passes" with
    | PyVal.none => get_value state "pass_count"
    | v => v
  | v => v

/-- `RuleProfile.passes_remaining(state)`. -/
def RuleProfile.passes_remaining (p : RuleProfile) (state : PyDict) :
    Except PyErr (Option Int) := do
  let limit ← p.pass_limit
  match limit with
  | Option.none => return Option.none
  | some l =>
    let count := coerce_non_negative_int (lookupPassesValue state) 0
    let remaining := l - count
    return some (if remaining > 0 then remaining else 0)

/-- `RuleProfile.is_move_legal(state, move)`. -/
def RuleProfile.is_move_legal (p : RuleProfile) (state move : PyDict) :
    Except PyErr Bool := do
  let rawAction := pyOr (get_value move "type") (get_value move "action")
  if ¬ pyTruthy rawAction then
    throw PyErr.valueError
  let action ← pyLower rawAction

  -- Enforce draw size.
  let requested_draw := get_value move "draw_count"
  if requested_draw ≠ PyVal.none ∧ ¬ pyEqInt requested_draw p.draw then
    return false

  if action = "draw" then
    return (match requested_draw with
            | PyVal.none => true
            | v => pyEqInt v p.draw)

  if action = "stock_pass" then
    let limit ← p.pass_limit
    match limit with
    | Option.none => return true
    | some l =>
      let passes_made := get_value_d state "passes_made" (PyVal.int 0)
      let r ← pyLtInt passes_made l
      return r

  if action = "supermove" then
    let modeVal :=
      pyOr (pyOr (get_value move "mode") (get_value move "strength"))
        (PyVal.str "standard")
    let modeStr ← pyLower modeVal
    let move_strength := (SUPERMOVE_STRENGTH modeStr).getD 1
    let allowed_strength := (SUPERMOVE_STRENGTH (strLower p.supermove)).getD 0
    return decide (move_strength ≤ allowed_strength)

  if action = "foundation_to_tableau" then
    return p.foundation_takeback

  if action = "peek" then
    return p.peek_xray

  if action = "autoplay" then
    if ¬ p.autoplay_safe_only then
      return true
    return pyTruthy (get_value_d move "is_safe" (PyVal.bool false))

  if action = "undo" then
    if p.undo_unlimited then
      return true
    match get_value state "undo_remaining" with
    | PyVal.none =>
      return (← pyOneSubMaxZeroGtZero (get_value_d state "undo_used" (PyVal.int 0)))
    | v => return (← pyGtZero v)

  -- Default to legal for unrecognised move types.
  return true

/-- Preset `MAX_RELAX`. -/
def MAX_RELAX : RuleProfile :=
  { draw := 1, passes := PyVal.str "unlimited", supermove := "relaxed",
    foundation_takeback := true, peek_xray := true,
    autoplay_safe_only := false, undo_unlimited := true }

/-- Preset `FRIENDLY_APP`. -/
def FRIENDLY_APP : RuleProfile :=
  { draw := 1, passes := PyVal.str "unlimited", supermove := "standard",
    foundation_takeback := true, peek_xray := false,
    autoplay_safe_only := false, undo_unlimited := true }

/-- Preset `STANDARD`. -/
def STANDARD : RuleProfile :=
  { draw := 3, passes := PyVal.str "three", supermove := "standard",
    foundation_takeback := false, peek_xray := false,
    autoplay_safe_only := true, undo_unlimited := false }

/-- Preset `XRAY`. -/
def XRAY : RuleProfile :=
  { draw := 3, passes := PyVal.str "three", supermove := "standard",
    foundation_takeback := false, peek_xray := true,
    autoplay_safe_only := true, undo_unlimited := false }

/-! ## The greedy Klondike solver (`scripts/solver.py`) -/

/-- One of the four suits. -/
inductive Suit where
  | spades : Suit
  | hearts : Suit
  | clubs : Suit
  | diamonds : Suit
deriving DecidableEq, Repr

/-- Card colours (`SUIT_COLORS`). -/
inductive CardColor where
  | black : CardColor
  | red : CardColor
deriving DecidableEq, Repr

/-- `SUIT_COLORS[suit]`. -/
def Suit.color : Suit → CardColor
  | Suit.spades => CardColor.black
  | Suit.clubs => CardColor.black
  | Suit.hearts => CardColor.red
  | Suit.diamonds => CardColor.red

/-- `Card(rank, suit, face_up)`.  The rank of a dealt card is 1..13, but an
explicit deck may carry any integer rank. -/
structure Card where
  rank : Int
  suit : Suit
  face_up : Bool
deriving DecidableEq, Repr

/-- `card.color`. -/
def Card.color (c : Card) : CardColor := c.suit.color

/-- The `foundations` dict, one pile per suit. -/
structure Foundations where
  spades : List Card
  hearts : List Card
  clubs : List Card
  diamonds : List Card
deriving DecidableEq, Repr

/-- Pile of a suit. -/
def Foundations.get (f : Foundations) : Suit → List Card
  | Suit.spades => f.spades
  | Suit.hearts => f.hearts
  | Suit.clubs => f.clubs
  | Suit.diamonds => f.diamonds

/-- Replace the pile of a suit. -/
def Foundations.put (f : Foundations) (s : Suit) (pile : List Card) :
    Foundations :=
  match s with
  | Suit.spades => { f with spades := pile }
  | Suit.hearts => { f with hearts := pile }
  | Suit.clubs => { f with clubs := pile }
  | Suit.diamonds => { f with diamonds := pile }

/-- All foundation cards, concatenated in suit order. -/
def Foundations.all (f : Foundations) : List Card :=
  f.spades ++ f.hearts ++ f.clubs ++ f.diamonds

/-- The mutable state of a `KlondikeSolver` instance together with its
constructor configuration (`draw_count`, `pass_limit`, `shuffle_seed`). -/
structure SolverState where
  draw_count : Nat
  pass_limit : Option Nat
  shuffle_seed : Nat
  tableau : List (List Card)
  stock : List Card
  waste : List Card
  foundations : Foundations
  moves : Nat
  passes_used : Nat
deriving DecidableEq, Repr

/-- `can_move_to_foundation(card)` (`foundation[-1]` is the last element). -/
def can_move_to_foundation (s : SolverState) (card : Card) : Bool :=
  match (s.foundations.get card.suit).getLast? with
  | Option.none => decide (card.rank = 1)
  | some top => decide (top.rank = card.rank - 1)

/-- `move_to_foundation(card)`. -/
def move_to_foundation (s : SolverState) (card : Card) : SolverState :=
  { s with
    foundations :=
      s.foundations.put card.suit (s.foundations.get card.suit ++ [card]),
    moves := s.moves + 1 }

/-- Turn the last card of a column face-up if it is face-down (the body of
`flip_tableau_if_needed` acting on one column). -/
def flipLast (col : List Card) : List Card :=
  match col.getLast? with
  | Option.none => col
  | some c =>
    if c.face_up then col else col.dropLast ++ [{ c with face_up := true }]

/-- `flip_tableau_if_needed(index)`. -/
def flip_tableau_if_needed (s : SolverState) (index : Nat) : SolverState :=
  { s with tableau := s.tableau.set index (flipLast (s.tableau.getD index [])) }

/-- `can_stack_on_tableau(card, column)`. -/
def can_stack_on_tableau (card : Card) (column : List Card) : Bool :=
  match column.getLast? with
  | Option.none => decide (card.rank = 13)
  | some top =>
    if ¬ top.face_up then false
    else decide (top.color ≠ card.color) && decide (top.rank = card.rank + 1)

/-- `move_stack(src_index, start_idx, dest_index)`:
`column[start_idx:]` is appended to the destination, removed from the
source, the move counter advances and the source flips if needed. -/
def move_stack (s : SolverState) (src_index start_idx dest_index : Nat) :
    SolverState :=
  let column := s.tableau.getD src_index []
  let stack := column.drop start_idx
  let tab1 := s.tableau.set src_index (column.take start_idx)
  let tab2 := tab1.set dest_index ((tab1.getD dest_index []) ++ stack)
  flip_tableau_if_needed { s with tableau := tab2, moves := s.moves + 1 }
    src_index

/-- The draw loop: pop from the end of the stock `n` times, appending the
cards face-up to the waste. -/
def drawLoop : Nat → List Card → List Card → List Card × List Card
  | 0, stock, waste => (stock, waste)
  | n + 1, stock, waste =>
    match stock.getLast? with
    | Option.none => (stock, waste)
    | some c => drawLoop n stock.dropLast (waste ++ [{ c with face_up := true }])

/-- `draw_from_stock()`. -/
def draw_from_stock (s : SolverState) : SolverState × Bool :=
  if s.stock.isEmpty then (s, false)
  else
    let n := min s.draw_count s.stock.length
    let sw := drawLoop n s.stock s.waste
    ({ s with stock := sw.1, waste := sw.2, moves := s.moves + 1 }, true)

/-- `recycle_stock()`. -/
def recycle_stock (s : SolverState) : SolverState × Bool :=
  if s.waste.isEmpty then (s, false)
  else if (match s.pass_limit with
           | some l => decide (l ≤ s.passes_used)
           | Option.none => false) then (s, false)
  else
    let cards := s.waste.reverse
    ({ s with
       stock := s.stock ++ cards.map (fun c => { c with face_up := false }),
       waste := [],
       passes_used := s.passes_used + 1 }, true)

/-- `try_promote_waste_to_foundation()`. -/
def try_promote_waste_to_foundation (s : SolverState) : SolverState × Bool :=
  match s.waste.getLast? with
  | Option.none => (s, false)
  | some card =>
    if ¬ can_move_to_foundation s card then (s, false)
    else (move_to_foundation { s with waste := s.waste.dropLast } card, true)

/-- First index of a list of indices satisfying `p` (the shape of the
`for ... if ... break` scans). -/
def firstNat (p : Nat → Bool) : List Nat → Option Nat
  | [] => Option.none
  | i :: rest => if p i then some i else firstNat p rest

/-- First `some` produced by `f` over a list of indices. -/
def firstSomeNat {B : Type} (f : Nat → Option B) : List Nat → Option B
  | [] => Option.none
  | i :: rest =>
    match f i with
    | some b => some b
    | Option.none => firstSomeNat f rest

/-- The column scan of `try_promote_tableau_to_foundation`: first column
whose last card is face-up and promotable. -/
def promoteIdx (s : SolverState) : Option Nat :=
  firstNat
    (fun i =>
      let column := s.tableau.getD i []
      match column.getLast? with
      | Option.none => false
      | some card => card.face_up && can_move_to_foundation s card)
    (List.range s.tableau.length)

/-- `try_promote_tableau_to_foundation()` (one promotion per call). -/
def try_promote_tableau_to_foundation (s : SolverState) : SolverState × Bool :=
  match promoteIdx s with
  | Option.none => (s, false)
  | some i =>
    let column := s.tableau.getD i []
    match column.getLast? with
    | Option.none => (s, false)
    | some card =>
      let s1 := { s with tableau := s.tableau.set i column.dropLast }
      (flip_tableau_if_needed (move_to_foundation s1 card) i, true)

/-- The target priority computed in `try_move_waste_to_tableau`. -/
def wastePriority (column : List Card) : Int :=
  if column.isEmpty then 2
  else if column.any (fun c => ¬ c.face_up) then 3
  else if (¬ column.isEmpty) &&
      (match column.getLast? with
       | some top => top.face_up
       | Option.none => false) then 1
  else 0

/-- The best-target scan of `try_move_waste_to_tableau`: the first legal
column of strictly maximal priority (`best_priority` starts at -1). -/
def bestWasteTarget (s : SolverState) (card : Card) : Option Nat :=
  ((List.range s.tableau.length).foldl
    (fun (acc : Option Nat × Int) i =>
      let column := s.tableau.getD i []
      if ¬ can_stack_on_tableau card column then acc
      else
        let priority := wastePriority column
        if acc.2 < priority then (some i, priority) else acc)
    (Option.none, -1)).1

/-- `try_move_waste_to_tableau()`. -/
def try_move_waste_to_tableau (s : SolverState) : SolverState × Bool :=
  match s.waste.getLast? with
  | Option.none => (s, false)
  | some card =>
    match bestWasteTarget s card with
    | Option.none => (s, false)
    | some t =>
      ({ s with
         tableau := s.tableau.set t ((s.tableau.getD t []) ++ [card]),
         waste := s.waste.dropLast,
         moves := s.moves + 1 }, true)

/-- `next((i for i, card in enumerate(column) if card.face_up), None)`. -/
def firstFaceUpIdx : List Card → Option Nat
  | [] => Option.none
  | c :: rest =>
    if c.face_up then some 0
    else (firstFaceUpIdx rest).map (fun i => i + 1)

/-- Whether `dest_index` is accepted by the inner loop of
`try_move_tableau_to_tableau` for a run starting with `stackHead`. -/
def t2tDestOk (s : SolverState) (src_index : Nat) (stackHead : Card)
    (has_hidden_card : Bool) (dest_index : Nat) : Bool :=
  let dest_column := s.tableau.getD dest_index []
  if dest_index = src_index then false
  else if ¬ can_stack_on_tableau stackHead dest_column then false
  else if ¬ dest_column.isEmpty ∧ ¬ has_hidden_card then false
  else if dest_column.isEmpty ∧ (stackHead.rank ≠ 13 ∨ ¬ has_hidden_card) then
    false
  else true

/-- The double scan of `try_move_tableau_to_tableau`, returning the first
`(src_index, first_face_up, dest_index)` match in index order. -/
def findTableauMove (s : SolverState) : Option (Nat × Nat × Nat) :=
  firstSomeNat
    (fun src_index =>
      let column := s.tableau.getD src_index []
      if column.isEmpty then Option.none
      else
        match firstFaceUpIdx column with
        | Option.none => Option.none
        | some first_face_up =>
          let stack := column.drop first_face_up
          let has_hidden_card := decide (0 < first_face_up)
          match stack.head? with
          | Option.none => Option.none
          | some stackHead =>
            (firstNat (t2tDestOk s src_index stackHead has_hidden_card)
              (List.range s.tableau.length)).map
              (fun dest_index => (src_index, first_face_up, dest_index)))
    (List.range s.tableau.length)

/-- `try_move_tableau_to_tableau()`. -/
def try_move_tableau_to_tableau (s : SolverState) : SolverState × Bool :=
  match findTableauMove s with
  | Option.none => (s, false)
  | some m => (move_stack s m.1 m.2.1 m.2.2, true)

/-- One pass of the `while True` body of `resolve_forced_moves`: the first
of the four forced moves that succeeds, or `Option.none` if none applies. -/
def forcedStep (s : SolverState) : Option SolverState :=
  let r1 := try_promote_waste_to_foundation s
  if r1.2 then some r1.1
  else
    let r2 := try_promote_tableau_to_foundation s
    if r2.2 then some r2.1
    else
      let r3 := try_move_waste_to_tableau s
      if r3.2 then some r3.1
      else
        let r4 := try_move_tableau_to_tableau s
        if r4.2 then some r4.1
        else Option.none

/-- Number of face-down cards in a pile. -/
def fdCount (l : List Card) : Nat := l.countP (fun c => ! c.face_up)

/-- Face-down cards across the whole state. -/
def stateFaceDown (s : SolverState) : Nat :=
  (s.tableau.map fdCount).sum + fdCount s.stock + fdCount s.waste +
    fdCount s.foundations.all

/-- Cards not on the foundations. -/
def offFoundation (s : SolverState) : Nat :=
  (s.tableau.map List.length).sum + s.stock.length + s.waste.length

/-- Termination measure for the forced-move loop: face-down cards plus
waste size plus cards not yet on the foundations. -/
def forcedMeasure (s : SolverState) : Nat :=
  stateFaceDown s + s.waste.length + offFoundation s

/-- The `while True` loop of `resolve_forced_moves`, with an explicit
iteration budget.  `resolve_forced_moves` supplies a budget derived from
`forcedMeasure`, which is sufficient: every successful `forcedStep`
strictly decreases the measure (proved below), so the loop below always
reaches the state on which `forcedStep` fails — the exact exit condition
of the source's unbounded loop. -/
def resolveLoop : Nat → SolverState → SolverState
  | 0, s => s
  | fuel + 1, s =>
    match forcedStep s with
    | Option.none => s
    | some s' => resolveLoop fuel s'

/-- `resolve_forced_moves()`. -/
def resolve_forced_moves (s : SolverState) : SolverState × Bool :=
  match forcedStep s with
  | Option.none => (s, false)
  | some s' => (resolveLoop (forcedMeasure s') s', true)

/-- `foundation_count()`. -/
def foundation_count (s : SolverState) : Nat := s.foundations.all.length

/-- `is_won()`. -/
def is_won (s : SolverState) : Bool := decide (foundation_count s = 52)

/-- The result mapping returned by `play()`. -/
structure PlayResult where
  won : Bool
  moves : Nat
  passes_used : Nat
  seed : Nat
  draw_count : Nat
  foundations : Nat
  stock_remaining : Nat
  waste : Nat
  steps : Nat
deriving DecidableEq, Repr

/-- The `while steps < max_steps and not is_won` loop of `play()`; the
remaining budget `max_steps - steps` is the first argument and `steps` the
third. -/
def playLoop : Nat → SolverState → Nat → SolverState × Nat
  | 0, s, steps => (s, steps)
  | fuel + 1, s, steps =>
    if is_won s then (s, steps)
    else
      let steps1 := steps + 1
      let r := resolve_forced_moves s
      if r.2 then playLoop fuel r.1 steps1
      else
        let d := draw_from_stock r.1
        if d.2 then playLoop fuel d.1 steps1
        else
          let rc := recycle_stock d.1
          if rc.2 then playLoop fuel rc.1 steps1
          else (rc.1, steps1)

/-- `play(max_steps)`. -/
def play (s : SolverState) (max_steps : Nat) : PlayResult :=
  let r := playLoop max_steps s 0
  { won := is_won r.1,
    moves := r.1.moves,
    passes_used := r.1.passes_used,
    seed := r.1.shuffle_seed,
    draw_count := r.1.draw_count,
    foundations := foundation_count r.1,
    stock_remaining := r.1.stock.length,
    waste := r.1.waste.length,
    steps := r.2 }

/-- Pop `n` cards from the end of the deck; first component lists them in
pop order. -/
def popN : Nat → List Card → List Card × List Card
  | 0, deck => ([], deck)
  | n + 1, deck =>
    match deck.getLast? with
    | Option.none => ([], deck)
    | some c =>
      let r := popN n deck.dropLast
      (c :: r.1, r.2)

/-- Build one tableau column from popped cards: the card at row `ci` (the
last dealt) is face-up (`card.face_up = row == column`). -/
def buildColumn (ci : Nat) : Nat → List Card → List Card
  | _, [] => []
  | row, c :: rest =>
    { c with face_up := decide (row = ci) } :: buildColumn ci (row + 1) rest

/-- Deal the columns listed by index, each taking `index + 1` cards from
the end of the deck. -/
def dealGo : List Nat → List Card → List (List Card) × List Card
  | [], deck => ([], deck)
  | ci :: rest, deck =>
    let p := popN (ci + 1) deck
    let r := dealGo rest p.2
    (buildColumn ci 0 p.1 :: r.1, r.2)

/-- `setup()` acting on the deck produced by `_build_deck` (the RNG shuffle
is a permutation of the standard 52-card deck; an explicit deck is used
verbatim, so the deck is a parameter here). -/
def setup (draw_count : Nat) (pass_limit : Option Nat) (shuffle_seed : Nat)
    (deck : List Card) : SolverState :=
  let d := dealGo (List.range 7) deck
  { draw_count := draw_count,
    pass_limit := pass_limit,
    shuffle_seed := shuffle_seed,
    tableau := d.1,
    stock := d.2.map (fun c => { c with face_up := false }),
    waste := [],
    foundations := { spades := [], hearts := [], clubs := [], diamonds := [] },
    moves := 0,
    passes_used := 0 }

/-- The unshuffled standard deck `[Card(rank, suit) for suit in SUITS for
rank in RANKS]`. -/
def standardDeck : List Card :=
  [Suit.spades, Suit.hearts, Suit.clubs, Suit.diamonds].flatMap
    (fun suit =>
      (List.range 13).map
        (fun r => { rank := (r : Int) + 1, suit := suit, face_up := false }))

/-- Identity of a card for conservation purposes: rank and suit (a card's
orientation changes during play, its identity does not). -/
def cardKey (c : Card) : Int × Suit := (c.rank, c.suit)

/-- Multiset of card identities in a pile. -/
def bagOf (l : List Card) : Multiset (Int × Suit) := (l.map cardKey : List _)

/-- Multiset of all card identities in a state, across tableau, stock,
waste and foundations. -/
def cardBag (s : SolverState) : Multiset (Int × Suit) :=
  (s.tableau.map bagOf).sum + bagOf s.stock + bagOf s.waste +
    bagOf s.foundations.all

/-! ## Definitions supporting the claim statements -/

/-- A bare `stock_pass` move. -/
def stockPassMove : PyDict := [("type", PyVal.str "stock_pass")]

/-- The stock-pass legality rule as the specification words it: the pass
count is read from `passes_made` with fallback synonyms `stock_passes` and
`pass_count`, coerced to a non-negative integer, and the move is legal iff
the limit is unlimited or the coerced count is strictly below it. -/
def specStockPassLegal (p : RuleProfile) (state : PyDict) :
    Except PyErr Bool := do
  let limit ← p.pass_limit
  match limit with
  | Option.none => return true
  | some l =>
    return decide (coerce_non_negative_int (lookupPassesValue state) 0 < l)

/-- The seven action types the engine recognises. -/
def recognisedActions : List String :=
  ["draw", "stock_pass", "supermove", "foundation_to_tableau", "peek",
   "autoplay", "undo"]

/-- The tableau-to-tableau legality rule exactly as the claim words it: a
run may move onto a non-empty accepting column unconditionally, and onto an
empty column iff the move would expose a hidden card or the run's base is a
King. -/
def specT2TLegal (s : SolverState) (src dest : Nat) : Bool :=
  match firstFaceUpIdx (s.tableau.getD src []) with
  | Option.none => false
  | some fi =>
    match ((s.tableau.getD src []).drop fi).head? with
    | Option.none => false
    | some hd =>
      if src = dest then false
      else if ¬ can_stack_on_tableau hd (s.tableau.getD dest []) then false
      else if ¬ (s.tableau.getD dest []).isEmpty then true
      else decide (0 < fi) || decide (hd.rank = 13)

/-- A state whose column 0 is a bare face-up red 7 and column 1 a bare
face-up black 8: the claim allows moving the 7 onto the 8 (non-empty
destination), the code does not (no hidden card in the source). -/
def c2State : SolverState :=
  { draw_count := 1, pass_limit := Option.none, shuffle_seed := 0,
    tableau := [[{ rank := 7, suit := Suit.hearts, face_up := true }],
                [{ rank := 8, suit := Suit.spades, face_up := true }],
                [], [], [], [], []],
    stock := [], waste := [],
    foundations := { spades := [], hearts := [], clubs := [], diamonds := [] },
    moves := 0, passes_used := 0 }

/-- Like `c2State` but with a hidden card under the 7, so the code does
take the move. -/
def c2WitnessState : SolverState :=
  { draw_count := 1, pass_limit := Option.none, shuffle_seed := 0,
    tableau := [[{ rank := 5, suit := Suit.clubs, face_up := false },
                 { rank := 7, suit := Suit.hearts, face_up := true }],
                [{ rank := 8, suit := Suit.spades, face_up := true }],
                [], [], [], [], []],
    stock := [], waste := [],
    foundations := { spades := [], hearts := [], clubs := [], diamonds := [] },
    moves := 0, passes_used := 0 }

/-- A state with a single playable ace on the waste: one forced move
applies. -/
def c10State : SolverState :=
  { draw_count := 1, pass_limit := Option.none, shuffle_seed := 0,
    tableau := [[], [], [], [], [], [], []],
    stock := [],
    waste := [{ rank := 1, suit := Suit.hearts, face_up := true }],
    foundations := { spades := [], hearts := [], clubs := [], diamonds := [] },
    moves := 0, passes_used := 0 }

/-! ## List and pile lemmas -/

/-- Replacing entry `i` (in range) exchanges its `f`-contribution. -/
theorem sum_map_set {A M : Type} [AddCommMonoid M] (f : A → M) (d : A) :
    ∀ (t : List A) (i : Nat) (x : A), i < t.length →
    ((t.set i x).map f).sum + f (t.getD i d) = (t.map f).sum + f x := by
  intro t
  induction t with
  | nil => intro i x h; simp at h
  | cons a tl ih =>
    intro i x h
    cases i with
    | zero =>
      simp [List.getD]
      abel
    | succ n =>
      simp only [List.set, List.getD_cons_succ, List.map_cons, List.sum_cons]
      rw [add_assoc, ih n x (by simpa using h), ← add_assoc]

/-- Replacing an entry by one of equal `f`-value keeps the sum. -/
theorem sum_map_set_eq {A M : Type} [AddCommMonoid M] (f : A → M) (d : A) :
    ∀ (t : List A) (i : Nat) (x : A), f x = f (t.getD i d) →
    ((t.set i x).map f).sum = (t.map f).sum := by
  intro t
  induction t with
  | nil => intro i x h; rfl
  | cons a tl ih =>
    intro i x h
    cases i with
    | zero => simp [List.getD] at h; simp [h]
    | succ n =>
      simp only [List.getD_cons_succ] at h
      simp only [List.set, List.map_cons, List.sum_cons]
      rw [ih n x h]

/-- Replacing an entry by one of smaller `f`-value cannot grow the sum. -/
theorem sum_map_set_le {A : Type} (f : A → Nat) (d : A) :
    ∀ (t : List A) (i : Nat) (x : A), f x ≤ f (t.getD i d) →
    ((t.set i x).map f).sum ≤ (t.map f).sum := by
  intro t
  induction t with
  | nil => intro i x h; simp
  | cons a tl ih =>
    intro i x h
    cases i with
    | zero => simp [List.getD] at h; simp; omega
    | succ n =>
      simp only [List.getD_cons_succ] at h
      simp only [List.set, List.map_cons, List.sum_cons]
      have := ih n x h
      omega

/-- `set` does not affect other entries. -/
theorem getD_set_ne {A : Type} (d : A) :
    ∀ (t : List A) (i j : Nat) (x : A), i ≠ j →
    (t.set i x).getD j d = t.getD j d := by
  intro t
  induction t with
  | nil => intro i j x h; rfl
  | cons a tl ih =>
    intro i j x h
    cases i with
    | zero =>
      cases j with
      | zero => exact absurd rfl h
      | succ m => rfl
    | succ n =>
      cases j with
      | zero => rfl
      | succ m => simpa using ih n m x (by omega)

/-- `set` at an in-range index stores the value. -/
theorem getD_set_self {A : Type} (d : A) :
    ∀ (t : List A) (i : Nat) (x : A), i < t.length →
    (t.set i x).getD i d = x := by
  intro t
  induction t with
  | nil => intro i x h; simp at h
  | cons a tl ih =>
    intro i x h
    cases i with
    | zero => rfl
    | succ n => simpa using ih n x (by simpa using h)

/-- A list with a last element decomposes around it. -/
theorem last_decomp {A : Type} (l : List A) (c : A) (h : l.getLast? = some c) :
    l = l.dropLast ++ [c] :=
  (List.dropLast_append_getLast? c h).symm

/-- `fdCount` distributes over append. -/
theorem fdCount_append (l1 l2 : List Card) :
    fdCount (l1 ++ l2) = fdCount l1 + fdCount l2 :=
  List.countP_append _ _ _

/-- `fdCount` of a single card. -/
theorem fdCount_singleton (c : Card) :
    fdCount [c] = if c.face_up then 0 else 1 := by
  cases h : c.face_up <;> simp [fdCount, List.countP_cons, h]

/-- `bagOf` distributes over append. -/
theorem bagOf_append (l1 l2 : List Card) :
    bagOf (l1 ++ l2) = bagOf l1 + bagOf l2 := by
  simp [bagOf]

/-- Flipping the last card preserves the card identities. -/
theorem flipLast_bag (l : List Card) : bagOf (flipLast l) = bagOf l := by
  unfold flipLast
  cases h : l.getLast? with
  | none => rfl
  | some c =>
    by_cases hc : c.face_up
    · simp [hc]
    · simp only [hc, Bool.false_eq_true, if_false]
      conv_rhs => rw [last_decomp l c h]
      rw [bagOf_append, bagOf_append]
      rfl

/-- Flipping the last card preserves length. -/
theorem flipLast_length (l : List Card) : (flipLast l).length = l.length := by
  unfold flipLast
  cases h : l.getLast? with
  | none => rfl
  | some c =>
    by_cases hc : c.face_up
    · simp [hc]
    · simp only [hc, Bool.false_eq_true, if_false]
      conv_rhs => rw [last_decomp l c h]
      simp

/-- Flipping the last card cannot increase the face-down count. -/
theorem flipLast_fd_le (l : List Card) : fdCount (flipLast l) ≤ fdCount l := by
  unfold flipLast
  cases h : l.getLast? with
  | none => exact le_refl _
  | some c =>
    by_cases hc : c.face_up
    · simp [hc]
    · simp only [hc, Bool.false_eq_true, if_false]
      conv_rhs => rw [last_decomp l c h]
      rw [fdCount_append, fdCount_append, fdCount_singleton, fdCount_singleton]
      simp [hc]

/-- Flipping a face-down last card decreases the face-down count by one. -/
theorem flipLast_fd_flip (l : List Card) (c : Card) (h : l.getLast? = some c)
    (hc : c.face_up = false) : fdCount (flipLast l) + 1 = fdCount l := by
  unfold flipLast
  rw [h]
  simp only [hc, Bool.false_eq_true, if_false]
  conv_rhs => rw [last_decomp l c h]
  rw [fdCount_append, fdCount_append, fdCount_singleton, fdCount_singleton, hc]
  simp

/-- What a successful `firstNat` scan guarantees. -/
theorem firstNat_spec (p : Nat → Bool) :
    ∀ (l : List Nat) (i : Nat), firstNat p l = some i → i ∈ l ∧ p i = true := by
  intro l
  induction l with
  | nil => intro i h; cases h
  | cons a rest ih =>
    intro i h
    unfold firstNat at h
    by_cases hp : p a = true
    · rw [if_pos hp] at h
      cases h
      exact ⟨List.mem_cons_self a rest, hp⟩
    · rw [if_neg hp] at h
      obtain ⟨hm, hpi⟩ := ih i h
      exact ⟨List.mem_cons_of_mem a hm, hpi⟩

/-- What a successful `firstSomeNat` scan guarantees. -/
theorem firstSomeNat_spec {B : Type} (f : Nat → Option B) :
    ∀ (l : List Nat) (b : B), firstSomeNat f l = some b →
    ∃ i ∈ l, f i = some b := by
  intro l
  induction l with
  | nil => intro b h; cases h
  | cons a rest ih =>
    intro b h
    unfold firstSomeNat at h
    cases hf : f a with
    | some v =>
      rw [hf] at h
      cases h
      exact ⟨a, List.mem_cons_self a rest, hf⟩
    | none =>
      rw [hf] at h
      obtain ⟨i, hm, hfi⟩ := ih b h
      exact ⟨i, List.mem_cons_of_mem a hm, hfi⟩

/-- What `firstFaceUpIdx` guarantees: the index is in range, everything
before it is face-down, and the card there is face-up. -/
theorem firstFaceUpIdx_spec :
    ∀ (l : List Card) (i : Nat), firstFaceUpIdx l = some i →
    i < l.length ∧ (∀ c ∈ l.take i, c.face_up = false) ∧
    ∃ c, (l.drop i).head? = some c ∧ c.face_up = true := by
  intro l
  induction l with
  | nil => intro i h; cases h
  | cons a rest ih =>
    intro i h
    unfold firstFaceUpIdx at h
    by_cases ha : a.face_up = true
    · rw [if_pos ha] at h
      cases h
      refine ⟨by simp, by simp, a, rfl, ha⟩
    · rw [if_neg ha] at h
      cases hr : firstFaceUpIdx rest with
      | none => rw [hr] at h; cases h
      | some i0 =>
        rw [hr] at h
        cases h
        obtain ⟨h1, h2, c, h3, h4⟩ := ih i0 hr
        refine ⟨by simpa using h1, ?_, c, by simpa using h3, h4⟩
        intro d hd
        rcases List.mem_cons.mp (by simpa using hd) with hda | hdr
        · subst hda
          simpa using ha
        · exact h2 d hdr

/-- A fold whose step keeps the accumulator or proposes the scanned index
can only report a scanned index (or the initial accumulator). -/
theorem foldl_first_mem (step : Option Nat × Int → Nat → Option Nat × Int)
    (hstep : ∀ acc i, (step acc i).1 = acc.1 ∨ (step acc i).1 = some i) :
    ∀ (l : List Nat) (acc : Option Nat × Int) (t : Nat),
    (l.foldl step acc).1 = some t → acc.1 = some t ∨ t ∈ l := by
  intro l
  induction l with
  | nil => intro acc t h; exact Or.inl h
  | cons i rest ih =>
    intro acc t h
    rcases ih (step acc i) t h with h2 | h2
    · rcases hstep acc i with h3 | h3
      · rw [h3] at h2
        exact Or.inl h2
      · rw [h3] at h2
        cases h2
        exact Or.inr (List.mem_cons_self i rest)
    · exact Or.inr (List.mem_cons_of_mem i h2)

/-- A reported waste-move target is a real column index. -/
theorem bestWasteTarget_lt (s : SolverState) (card : Card) (t : Nat)
    (h : bestWasteTarget s card = some t) : t < s.tableau.length := by
  unfold bestWasteTarget at h
  have h2 := foldl_first_mem
    (fun (acc : Option Nat × Int) i =>
      let column := s.tableau.getD i []
      if ¬ can_stack_on_tableau card column then acc
      else
        let priority := wastePriority column
        if acc.2 < priority then (some i, priority) else acc)
    (fun acc i => by
      dsimp only
      split
      · exact Or.inl rfl
      · split
        · exact Or.inr rfl
        · exact Or.inl rfl)
    (List.range s.tableau.length) (Option.none, -1) t h
  rcases h2 with h2 | h2
  · exact absurd h2 (by simp)
  · exact List.mem_range.mp h2

/-- Appending one card to a foundation pile: face-down count. -/
theorem found_put_fd (f : Foundations) (suit : Suit) (c : Card) :
    fdCount ((f.put suit (f.get suit ++ [c])).all)
      = fdCount f.all + fdCount [c] := by
  cases suit <;>
    simp only [Foundations.put, Foundations.get, Foundations.all,
      fdCount_append] <;> omega

/-- Appending one card to a foundation pile: total size. -/
theorem found_put_len (f : Foundations) (suit : Suit) (c : Card) :
    ((f.put suit (f.get suit ++ [c])).all).length = f.all.length + 1 := by
  cases suit <;>
    simp only [Foundations.put, Foundations.get, Foundations.all,
      List.length_append, List.length_singleton] <;> omega

/-- Appending one card to a foundation pile: card identities. -/
theorem found_put_bag (f : Foundations) (suit : Suit) (c : Card) :
    bagOf ((f.put suit (f.get suit ++ [c])).all)
      = bagOf f.all + bagOf [c] := by
  cases suit <;>
    simp only [Foundations.put, Foundations.get, Foundations.all,
      bagOf_append] <;> abel

/-- Inversion of a successful waste-to-foundation promotion. -/
theorem promoteWaste_success (s s' : SolverState)
    (h : try_promote_waste_to_foundation s = (s', true)) :
    ∃ card, s.waste.getLast? = some card ∧
      can_move_to_foundation s card = true ∧
      s' = move_to_foundation { s with waste := s.waste.dropLast } card := by
  unfold try_promote_waste_to_foundation at h
  split at h
  · simp at h
  · rename_i card hw
    split at h
    · simp at h
    · rename_i hc
      refine ⟨card, hw, by simpa using hc, ?_⟩
      exact (Prod.mk.injEq .. ▸ h).1.symm

/-- Inversion of a successful tableau-to-foundation promotion. -/
theorem promoteTableau_success (s s' : SolverState)
    (h : try_promote_tableau_to_foundation s = (s', true)) :
    ∃ i card, i < s.tableau.length ∧
      (s.tableau.getD i []).getLast? = some card ∧
      card.face_up = true ∧
      can_move_to_foundation s card = true ∧
      s' = flip_tableau_if_needed
        (move_to_foundation
          { s with tableau := s.tableau.set i (s.tableau.getD i []).dropLast }
          card) i := by
  unfold try_promote_tableau_to_foundation at h
  split at h
  · simp at h
  · rename_i i hi
    obtain ⟨hmem, hp⟩ := firstNat_spec _ _ _ hi
    have hlt : i < s.tableau.length := List.mem_range.mp hmem
    dsimp only at h hp
    split at h
    · simp at h
    · rename_i card hc
      rw [hc] at hp
      simp only [Bool.and_eq_true] at hp
      refine ⟨i, card, hlt, hc, hp.1, hp.2, ?_⟩
      exact (Prod.mk.injEq .. ▸ h).1.symm

/-- Inversion of a successful waste-to-tableau move. -/
theorem wasteToTableau_success (s s' : SolverState)
    (h : try_move_waste_to_tableau s = (s', true)) :
    ∃ card t, s.waste.getLast? = some card ∧
      bestWasteTarget s card = some t ∧
      s' = { s with
             tableau := s.tableau.set t ((s.tableau.getD t []) ++ [card]),
             waste := s.waste.dropLast,
             moves := s.moves + 1 } := by
  unfold try_move_waste_to_tableau at h
  split at h
  · simp at h
  · rename_i card hw
    split at h
    · simp at h
    · rename_i t ht
      refine ⟨card, t, hw, ht, ?_⟩
      exact (Prod.mk.injEq .. ▸ h).1.symm

/-- Inversion of a successful tableau-to-tableau move. -/
theorem tableauToTableau_success (s s' : SolverState)
    (h : try_move_tableau_to_tableau s = (s', true)) :
    ∃ m, findTableauMove s = some m ∧ s' = move_stack s m.1 m.2.1 m.2.2 := by
  unfold try_move_tableau_to_tableau at h
  split at h
  · simp at h
  · rename_i m hm
    refine ⟨m, hm, ?_⟩
    exact (Prod.mk.injEq .. ▸ h).1.symm

/-- What an accepted tableau-to-tableau destination satisfies. -/
theorem t2tDestOk_spec (s : SolverState) (src : Nat) (hd : Card) (hh : Bool)
    (dest : Nat) (h : t2tDestOk s src hd hh dest = true) :
    dest ≠ src ∧ can_stack_on_tableau hd (s.tableau.getD dest []) = true ∧
    hh = true ∧
    ((s.tableau.getD dest []).isEmpty = true → hd.rank = 13) := by
  unfold t2tDestOk at h
  dsimp only at h
  split at h
  · cases h
  split at h
  · cases h
  split at h
  · cases h
  split at h
  · cases h
  rename_i h1 h2 h3 h4
  refine ⟨h1, by simpa using h2, ?_, ?_⟩
  · by_cases hhh : hh = true
    · exact hhh
    · exfalso
      by_cases hemp : (s.tableau.getD dest []).isEmpty = true
      · exact h4 ⟨hemp, Or.inr (by simpa using hhh)⟩
      · exact h3 ⟨by simpa using hemp, by simpa using hhh⟩
  · intro hemp
    by_cases h13 : hd.rank = 13
    · exact h13
    · exact absurd ⟨hemp, Or.inl h13⟩ h4

/-- What a reported tableau move satisfies. -/
theorem findTableauMove_spec (s : SolverState) (src fi dest : Nat)
    (h : findTableauMove s = some (src, fi, dest)) :
    src < s.tableau.length ∧ dest < s.tableau.length ∧
    firstFaceUpIdx (s.tableau.getD src []) = some fi ∧
    ∃ hd, ((s.tableau.getD src []).drop fi).head? = some hd ∧
      t2tDestOk s src hd (decide (0 < fi)) dest = true := by
  obtain ⟨i, hmem, hf⟩ := firstSomeNat_spec _ _ _ h
  have hlt : i < s.tableau.length := List.mem_range.mp hmem
  dsimp only at hf
  split at hf
  · cases hf
  split at hf
  · cases hf
  rename_i hemp ffu hffu
  split at hf
  · cases hf
  rename_i stackHead hhd
  cases hfn : firstNat (t2tDestOk s i stackHead (decide (0 < ffu)))
      (List.range s.tableau.length) with
  | none => rw [hfn] at hf; cases hf
  | some d =>
    rw [hfn] at hf
    simp only [Option.map_some'] at hf
    have htrip : i = src ∧ ffu = fi ∧ d = dest := by
      cases hf
      exact ⟨rfl, rfl, rfl⟩
    obtain ⟨rfl, rfl, rfl⟩ := htrip
    obtain ⟨hdm, hok⟩ := firstNat_spec _ _ _ hfn
    exact ⟨hlt, List.mem_range.mp hdm, hffu, stackHead, hhd, hok⟩

/-- A waste-to-foundation promotion strictly decreases the measure. -/
theorem promoteWaste_measure (s s' : SolverState)
    (h : try_promote_waste_to_foundation s = (s', true)) :
    forcedMeasure s' < forcedMeasure s := by
  obtain ⟨card, hw, hc, rfl⟩ := promoteWaste_success s s' h
  have hdecomp : s.waste = s.waste.dropLast ++ [card] := last_decomp _ _ hw
  have h1 : fdCount s.waste = fdCount s.waste.dropLast + fdCount [card] := by
    conv_lhs => rw [hdecomp]
    exact fdCount_append _ _
  have h2 : s.waste.length = s.waste.dropLast.length + 1 := by
    conv_lhs => rw [hdecomp]
    simp
  have h3 := found_put_fd s.foundations card.suit card
  simp only [forcedMeasure, stateFaceDown, offFoundation, move_to_foundation]
  omega

/-- A waste-to-tableau move strictly decreases the measure. -/
theorem wasteToTableau_measure (s s' : SolverState)
    (h : try_move_waste_to_tableau s = (s', true)) :
    forcedMeasure s' < forcedMeasure s := by
  obtain ⟨card, t, hw, ht, rfl⟩ := wasteToTableau_success s s' h
  have hlt : t < s.tableau.length := bestWasteTarget_lt s card t ht
  have hdecomp : s.waste = s.waste.dropLast ++ [card] := last_decomp _ _ hw
  have h1 : fdCount s.waste = fdCount s.waste.dropLast + fdCount [card] := by
    conv_lhs => rw [hdecomp]
    exact fdCount_append _ _
  have h2 : s.waste.length = s.waste.dropLast.length + 1 := by
    conv_lhs => rw [hdecomp]
    simp
  have hsum_len := sum_map_set List.length ([] : List Card) s.tableau t
    ((s.tableau.getD t []) ++ [card]) hlt
  have hsum_fd := sum_map_set fdCount ([] : List Card) s.tableau t
    ((s.tableau.getD t []) ++ [card]) hlt
  rw [fdCount_append] at hsum_fd
  rw [List.length_append] at hsum_len
  simp only [forcedMeasure, stateFaceDown, offFoundation]
  simp only [List.length_singleton] at hsum_len
  omega

/-- A tableau-to-foundation promotion strictly decreases the measure. -/
theorem promoteTableau_measure (s s' : SolverState)
    (h : try_promote_tableau_to_foundation s = (s', true)) :
    forcedMeasure s' < forcedMeasure s := by
  obtain ⟨i, card, hlt, hc, hface, hcan, rfl⟩ := promoteTableau_success s s' h
  have hdecomp : s.tableau.getD i [] = (s.tableau.getD i []).dropLast ++ [card] :=
    last_decomp _ _ hc
  have hlen : (s.tableau.getD i []).length
      = (s.tableau.getD i []).dropLast.length + 1 := by
    conv_lhs => rw [hdecomp]
    simp
  have hfd : fdCount (s.tableau.getD i [])
      = fdCount (s.tableau.getD i []).dropLast := by
    conv_lhs => rw [hdecomp]
    rw [fdCount_append, fdCount_singleton, hface]
    simp
  have hsum_len := sum_map_set List.length ([] : List Card) s.tableau i
    (s.tableau.getD i []).dropLast hlt
  have hsum_fd := sum_map_set fdCount ([] : List Card) s.tableau i
    (s.tableau.getD i []).dropLast hlt
  have hgd : (s.tableau.set i (s.tableau.getD i []).dropLast).getD i []
      = (s.tableau.getD i []).dropLast :=
    getD_set_self [] s.tableau i _ hlt
  have hflip_len :
      (((s.tableau.set i (s.tableau.getD i []).dropLast).set i
          (flipLast ((s.tableau.set i (s.tableau.getD i []).dropLast).getD i
            []))).map List.length).sum
        = ((s.tableau.set i (s.tableau.getD i []).dropLast).map
            List.length).sum :=
    sum_map_set_eq List.length ([] : List Card) _ i _ (by rw [flipLast_length])
  have hflip_fd :
      (((s.tableau.set i (s.tableau.getD i []).dropLast).set i
          (flipLast ((s.tableau.set i (s.tableau.getD i []).dropLast).getD i
            []))).map fdCount).sum
        ≤ ((s.tableau.set i (s.tableau.getD i []).dropLast).map
            fdCount).sum :=
    sum_map_set_le fdCount ([] : List Card) _ i _ (flipLast_fd_le _)
  have hfound := found_put_fd s.foundations card.suit card
  have hcard0 : fdCount [card] = 0 := by
    rw [fdCount_singleton, hface]
    simp
  simp only [forcedMeasure, stateFaceDown, offFoundation,
    flip_tableau_if_needed, move_to_foundation]
  omega

/-- A tableau-to-tableau forced move strictly decreases the measure: it
always flips exactly one previously face-down card in the source column. -/
theorem tableauToTableau_measure (s s' : SolverState)
    (h : try_move_tableau_to_tableau s = (s', true)) :
    forcedMeasure s' < forcedMeasure s := by
  obtain ⟨m, hm, rfl⟩ := tableauToTableau_success s s' h
  obtain ⟨src, fi, dest⟩ := m
  obtain ⟨hsrc, hdest, hffu, hd, hhd, hok⟩ := findTableauMove_spec s src fi dest hm
  obtain ⟨hne, hcan, hhh, hking⟩ := t2tDestOk_spec s src hd _ dest hok
  have hfi : 0 < fi := of_decide_eq_true hhh
  obtain ⟨hfilt, htake, c0, hc0, hc0up⟩ :=
    firstFaceUpIdx_spec (s.tableau.getD src []) fi hffu
  -- abbreviations
  set A := s.tableau.getD src [] with hA
  set X := A.take fi with hX
  set K := A.drop fi with hK
  set tab1 := s.tableau.set src X with htab1
  have hlen1 : tab1.length = s.tableau.length := by
    rw [htab1, List.length_set]
  have hB : tab1.getD dest [] = s.tableau.getD dest [] :=
    getD_set_ne [] s.tableau src dest X (fun hcontra => hne hcontra.symm)
  set B := s.tableau.getD dest [] with hBB
  set tab2 := tab1.set dest (B ++ K) with htab2
  have hlen2 : tab2.length = s.tableau.length := by
    rw [htab2, List.length_set, hlen1]
  have hx : tab2.getD src [] = X := by
    rw [htab2, getD_set_ne [] tab1 dest src _ hne, htab1,
      getD_set_self [] s.tableau src X hsrc]
  -- splitting the source column
  have hXK : X ++ K = A := List.take_append_drop fi A
  have hlenXK : X.length + K.length = A.length := by
    rw [← List.length_append, hXK]
  have hfdXK : fdCount X + fdCount K = fdCount A := by
    rw [← fdCount_append, hXK]
  -- the source remainder is nonempty and fully face-down
  have hXlen : X.length = fi := by
    rw [hX, List.length_take]
    omega
  have hXne : X ≠ [] := by
    intro hcontra
    rw [hcontra] at hXlen
    simp at hXlen
    omega
  have hXlast : X.getLast? = some (X.getLast hXne) :=
    List.getLast?_eq_getLast_of_ne_nil hXne
  have hXlast_fd : (X.getLast hXne).face_up = false :=
    htake _ (List.getLast_mem hXne)
  have hflip : fdCount (flipLast X) + 1 = fdCount X :=
    flipLast_fd_flip X _ hXlast hXlast_fd
  -- sums over the three set operations
  have e1 := sum_map_set List.length ([] : List Card) s.tableau src X hsrc
  have f1 := sum_map_set fdCount ([] : List Card) s.tableau src X hsrc
  rw [← htab1, ← hA] at e1 f1
  have e2 := sum_map_set List.length ([] : List Card) tab1 dest (B ++ K)
    (by rw [hlen1]; exact hdest)
  have f2 := sum_map_set fdCount ([] : List Card) tab1 dest (B ++ K)
    (by rw [hlen1]; exact hdest)
  rw [hB, List.length_append, ← htab2] at e2
  rw [hB, fdCount_append, ← htab2] at f2
  have e3 := sum_map_set List.length ([] : List Card) tab2 src (flipLast X)
    (by rw [hlen2]; exact hsrc)
  have f3 := sum_map_set fdCount ([] : List Card) tab2 src (flipLast X)
    (by rw [hlen2]; exact hsrc)
  rw [hx, flipLast_length] at e3
  rw [hx] at f3
  -- expand the move and the measure
  unfold move_stack flip_tableau_if_needed
  simp only [forcedMeasure, stateFaceDown, offFoundation]
  rw [← hA, ← hX, ← hK, ← htab1]
  rw [show tab1.getD dest [] = B from hB, ← htab2, hx]
  omega

/-- Every successful pass of the forced-move loop strictly decreases the
measure. -/
theorem forcedStep_measure_lt (s s' : SolverState)
    (h : forcedStep s = some s') : forcedMeasure s' < forcedMeasure s := by
  unfold forcedStep at h
  by_cases h1 : (try_promote_waste_to_foundation s).2 = true
  · rw [if_pos h1] at h
    cases h
    exact promoteWaste_measure s _ (Prod.mk.eta.symm.trans (by rw [h1]))
  rw [if_neg h1] at h
  by_cases h2 : (try_promote_tableau_to_foundation s).2 = true
  · rw [if_pos h2] at h
    cases h
    exact promoteTableau_measure s _ (Prod.mk.eta.symm.trans (by rw [h2]))
  rw [if_neg h2] at h
  by_cases h3 : (try_move_waste_to_tableau s).2 = true
  · rw [if_pos h3] at h
    cases h
    exact wasteToTableau_measure s _ (Prod.mk.eta.symm.trans (by rw [h3]))
  rw [if_neg h3] at h
  by_cases h4 : (try_move_tableau_to_tableau s).2 = true
  · rw [if_pos h4] at h
    cases h
    exact tableauToTableau_measure s _ (Prod.mk.eta.symm.trans (by rw [h4]))
  rw [if_neg h4] at h
  cases h

/-- With a budget of at least `forcedMeasure s`, the bounded loop reaches
the exact exit condition of the source's unbounded `while True` loop: no
forced move applies to the returned state. -/
theorem resolveLoop_fixpoint :
    ∀ (fuel : Nat) (s : SolverState), forcedMeasure s ≤ fuel →
    forcedStep (resolveLoop fuel s) = Option.none := by
  intro fuel
  induction fuel with
  | zero =>
    intro s hs
    cases hstep : forcedStep s with
    | none => simpa [resolveLoop] using hstep
    | some s' =>
      have := forcedStep_measure_lt s s' hstep
      omega
  | succ n ih =>
    intro s hs
    unfold resolveLoop
    cases hstep : forcedStep s with
    | none => exact hstep
    | some s' =>
      have hlt := forcedStep_measure_lt s s' hstep
      exact ih s' (by omega)

/-- No forced move applies to the state `resolve_forced_moves` returns. -/
theorem resolve_forced_moves_fixpoint (s : SolverState) :
    forcedStep (resolve_forced_moves s).1 = Option.none := by
  unfold resolve_forced_moves
  cases hstep : forcedStep s with
  | none => exact hstep
  | some s' => exact resolveLoop_fixpoint _ s' (le_refl _)

/-- The step counter of the play loop advances by at most the budget. -/
theorem playLoop_steps :
    ∀ (fuel : Nat) (s : SolverState) (steps : Nat),
    (playLoop fuel s steps).2 ≤ steps + fuel := by
  intro fuel
  induction fuel with
  | zero => intro s steps; exact le_of_eq rfl
  | succ n ih =>
    intro s steps
    unfold playLoop
    by_cases hw : is_won s = true
    · rw [if_pos hw]
      omega
    rw [if_neg hw]
    dsimp only
    by_cases h1 : (resolve_forced_moves s).2 = true
    · rw [if_pos h1]
      have := ih (resolve_forced_moves s).1 (steps + 1)
      omega
    rw [if_neg h1]
    by_cases h2 : (draw_from_stock (resolve_forced_moves s).1).2 = true
    · rw [if_pos h2]
      have := ih (draw_from_stock (resolve_forced_moves s).1).1 (steps + 1)
      omega
    rw [if_neg h2]
    by_cases h3 :
        (recycle_stock (draw_from_stock (resolve_forced_moves s).1).1).2 = true
    · rw [if_pos h3]
      have := ih
        (recycle_stock (draw_from_stock (resolve_forced_moves s).1).1).1
        (steps + 1)
      omega
    rw [if_neg h3]
    omega

/-- `move_stack` at valid distinct indices preserves the card identities. -/
theorem move_stack_bag (s : SolverState) (src fi dest : Nat)
    (hsrc : src < s.tableau.length) (hdest : dest < s.tableau.length)
    (hne : dest ≠ src) :
    cardBag (move_stack s src fi dest) = cardBag s := by
  set A := s.tableau.getD src [] with hA
  set X := A.take fi with hX
  set K := A.drop fi with hK
  set tab1 := s.tableau.set src X with htab1
  have hlen1 : tab1.length = s.tableau.length := by
    rw [htab1, List.length_set]
  have hB : tab1.getD dest [] = s.tableau.getD dest [] :=
    getD_set_ne [] s.tableau src dest X (fun hcontra => hne hcontra.symm)
  set B := s.tableau.getD dest [] with hBB
  set tab2 := tab1.set dest (B ++ K) with htab2
  have hlen2 : tab2.length = s.tableau.length := by
    rw [htab2, List.length_set, hlen1]
  have hx : tab2.getD src [] = X := by
    rw [htab2, getD_set_ne [] tab1 dest src _ hne, htab1,
      getD_set_self [] s.tableau src X hsrc]
  have hXK : bagOf X + bagOf K = bagOf A := by
    rw [← bagOf_append, hX, hK, List.take_append_drop]
  have e1 := sum_map_set bagOf ([] : List Card) s.tableau src X hsrc
  rw [← htab1, ← hA] at e1
  have e2 := sum_map_set bagOf ([] : List Card) tab1 dest (B ++ K)
    (by rw [hlen1]; exact hdest)
  rw [hB, ← htab2, bagOf_append] at e2
  have hc1 : (tab1.map bagOf).sum + bagOf K = (s.tableau.map bagOf).sum := by
    rw [← hXK] at e1
    rw [add_comm (bagOf X) (bagOf K), ← add_assoc] at e1
    exact add_right_cancel e1
  have hc2 : (tab2.map bagOf).sum
      = (tab1.map bagOf).sum + bagOf K := by
    rw [add_comm (bagOf B) (bagOf K), ← add_assoc] at e2
    exact add_right_cancel e2
  have e3 : ((tab2.set src (flipLast (tab2.getD src []))).map bagOf).sum
      = (tab2.map bagOf).sum :=
    sum_map_set_eq bagOf ([] : List Card) tab2 src _ (flipLast_bag _)
  unfold move_stack flip_tableau_if_needed
  simp only [cardBag]
  rw [← hA, ← hX, ← hK, ← htab1, show tab1.getD dest [] = B from hB, ← htab2]
  rw [e3, hc2, hc1]

/-- A waste-to-foundation promotion preserves the card identities. -/
theorem promoteWaste_bag (s : SolverState) :
    cardBag (try_promote_waste_to_foundation s).1 = cardBag s := by
  unfold try_promote_waste_to_foundation
  split
  · rfl
  · rename_i card hw
    split
    · rfl
    · dsimp only
      have h1 : bagOf s.waste = bagOf s.waste.dropLast + bagOf [card] := by
        conv_lhs => rw [last_decomp _ _ hw]
        exact bagOf_append _ _
      simp only [cardBag, move_to_foundation]
      rw [found_put_bag, h1]
      abel

/-- A tableau-to-foundation promotion preserves the card identities. -/
theorem promoteTableau_bag (s : SolverState) :
    cardBag (try_promote_tableau_to_foundation s).1 = cardBag s := by
  unfold try_promote_tableau_to_foundation
  split
  · rfl
  · rename_i i hi
    dsimp only
    split
    · rfl
    · rename_i card hc
      obtain ⟨hmem, hp⟩ := firstNat_spec _ _ _ hi
      have hlt : i < s.tableau.length := List.mem_range.mp hmem
      have hcol : bagOf (s.tableau.getD i [])
          = bagOf (s.tableau.getD i []).dropLast + bagOf [card] := by
        conv_lhs => rw [last_decomp _ _ hc]
        exact bagOf_append _ _
      have e1 := sum_map_set bagOf ([] : List Card) s.tableau i
        (s.tableau.getD i []).dropLast hlt
      have hc1 : ((s.tableau.set i (s.tableau.getD i []).dropLast).map
            bagOf).sum + bagOf [card] = (s.tableau.map bagOf).sum := by
        rw [hcol, add_comm (bagOf (s.tableau.getD i []).dropLast)
          (bagOf [card]), ← add_assoc] at e1
        exact add_right_cancel e1
      have e3 : (((s.tableau.set i (s.tableau.getD i []).dropLast).set i
            (flipLast ((s.tableau.set i (s.tableau.getD i []).dropLast).getD i
              []))).map bagOf).sum
          = ((s.tableau.set i (s.tableau.getD i []).dropLast).map bagOf).sum :=
        sum_map_set_eq bagOf ([] : List Card) _ i _ (flipLast_bag _)
      simp only [cardBag, move_to_foundation, flip_tableau_if_needed]
      rw [e3, found_put_bag, ← hc1]
      abel

/-- A waste-to-tableau move preserves the card identities. -/
theorem wasteToTableau_bag (s : SolverState) :
    cardBag (try_move_waste_to_tableau s).1 = cardBag s := by
  unfold try_move_waste_to_tableau
  split
  · rfl
  · rename_i card hw
    split
    · rfl
    · rename_i t ht
      have hlt : t < s.tableau.length := bestWasteTarget_lt s card t ht
      have h1 : bagOf s.waste = bagOf s.waste.dropLast + bagOf [card] := by
        conv_lhs => rw [last_decomp _ _ hw]
        exact bagOf_append _ _
      have e1 := sum_map_set bagOf ([] : List Card) s.tableau t
        ((s.tableau.getD t []) ++ [card]) hlt
      rw [bagOf_append] at e1
      have hc1 : ((s.tableau.set t ((s.tableau.getD t []) ++ [card])).map
            bagOf).sum = (s.tableau.map bagOf).sum + bagOf [card] := by
        rw [← add_assoc] at e1
        have e1' : ((s.tableau.set t ((s.tableau.getD t []) ++ [card])).map
              bagOf).sum + bagOf (s.tableau.getD t [])
            = ((s.tableau.map bagOf).sum + bagOf [card]) +
              bagOf (s.tableau.getD t []) := by
          rw [e1]
          abel
        exact add_right_cancel e1'
      simp only [cardBag]
      rw [hc1, h1]
      abel

/-- A tableau-to-tableau forced move preserves the card identities. -/
theorem tableauToTableau_bag (s : SolverState) :
    cardBag (try_move_tableau_to_tableau s).1 = cardBag s := by
  cases hr : try_move_tableau_to_tableau s with
  | mk s1 b =>
    cases b with
    | false =>
      unfold try_move_tableau_to_tableau at hr
      split at hr
      · cases hr
        rfl
      · cases hr
    | true =>
      obtain ⟨m, hm, hs1⟩ := tableauToTableau_success s s1 hr
      obtain ⟨src, fi, dest⟩ := m
      obtain ⟨hsrc, hdest, hffu, hd, hhd, hok⟩ :=
        findTableauMove_spec s src fi dest hm
      obtain ⟨hne, hcan, hhh, hking⟩ := t2tDestOk_spec s src hd _ dest hok
      dsimp only at hs1
      rw [hs1]
      exact move_stack_bag s src fi dest hsrc hdest hne

/-- The draw loop moves cards between stock and waste without creating or
destroying any. -/
theorem drawLoop_bag :
    ∀ (n : Nat) (stock waste : List Card),
    bagOf (drawLoop n stock waste).1 + bagOf (drawLoop n stock waste).2
      = bagOf stock + bagOf waste := by
  intro n
  induction n with
  | zero => intro stock waste; rfl
  | succ k ih =>
    intro stock waste
    unfold drawLoop
    cases hc : stock.getLast? with
    | none => rfl
    | some c =>
      rw [ih]
      have h1 : bagOf stock = bagOf stock.dropLast + bagOf [c] := by
        conv_lhs => rw [last_decomp _ _ hc]
        exact bagOf_append _ _
      rw [bagOf_append, h1]
      have hkey : bagOf [{ c with face_up := true }] = bagOf [c] := rfl
      rw [hkey]
      abel

/-- `draw_from_stock` preserves the card identities. -/
theorem draw_bag (s : SolverState) :
    cardBag (draw_from_stock s).1 = cardBag s := by
  unfold draw_from_stock
  split
  · rfl
  · dsimp only
    simp only [cardBag]
    have h := drawLoop_bag (min s.draw_count s.stock.length) s.stock s.waste
    have hrw : ∀ (T F L1 L2 S W : Multiset (Int × Suit)),
        L1 + L2 = S + W → T + L1 + L2 + F = T + S + W + F := by
      intro T F L1 L2 S W hh
      rw [add_assoc T L1 L2, hh, ← add_assoc]
    exact hrw _ _ _ _ _ _ h

/-- `recycle_stock` preserves the card identities. -/
theorem recycle_bag (s : SolverState) :
    cardBag (recycle_stock s).1 = cardBag s := by
  unfold recycle_stock
  split
  · rfl
  split
  · rfl
  · dsimp only
    simp only [cardBag]
    have h1 : bagOf (s.waste.reverse.map (fun c => { c with face_up := false }))
        = bagOf s.waste := by
      unfold bagOf
      rw [List.map_map]
      have : cardKey ∘ (fun c => { c with face_up := false }) = cardKey := rfl
      rw [this]
      rw [List.map_reverse]
      exact Multiset.coe_reverse _
    rw [bagOf_append, h1]
    have h0 : bagOf ([] : List Card) = 0 := rfl
    rw [h0]
    abel

/-- One forced-move pass preserves the card identities. -/
theorem forcedStep_bag (s s' : SolverState) (h : forcedStep s = some s') :
    cardBag s' = cardBag s := by
  unfold forcedStep at h
  by_cases h1 : (try_promote_waste_to_foundation s).2 = true
  · rw [if_pos h1] at h
    cases h
    exact promoteWaste_bag s
  rw [if_neg h1] at h
  by_cases h2 : (try_promote_tableau_to_foundation s).2 = true
  · rw [if_pos h2] at h
    cases h
    exact promoteTableau_bag s
  rw [if_neg h2] at h
  by_cases h3 : (try_move_waste_to_tableau s).2 = true
  · rw [if_pos h3] at h
    cases h
    exact wasteToTableau_bag s
  rw [if_neg h3] at h
  by_cases h4 : (try_move_tableau_to_tableau s).2 = true
  · rw [if_pos h4] at h
    cases h
    exact tableauToTableau_bag s
  rw [if_neg h4] at h
  cases h

/-- The forced-move loop preserves the card identities. -/
theorem resolveLoop_bag :
    ∀ (fuel : Nat) (s : SolverState),
    cardBag (resolveLoop fuel s) = cardBag s := by
  intro fuel
  induction fuel with
  | zero => intro s; rfl
  | succ n ih =>
    intro s
    unfold resolveLoop
    cases hstep : forcedStep s with
    | none => rfl
    | some s' => rw [ih s', forcedStep_bag s s' hstep]

/-- `resolve_forced_moves` preserves the card identities. -/
theorem resolve_bag (s : SolverState) :
    cardBag (resolve_forced_moves s).1 = cardBag s := by
  unfold resolve_forced_moves
  cases hstep : forcedStep s with
  | none => rfl
  | some s' =>
    dsimp only
    rw [resolveLoop_bag _ s', forcedStep_bag s s' hstep]

/-- The play loop preserves the card identities. -/
theorem playLoop_bag :
    ∀ (fuel : Nat) (s : SolverState) (steps : Nat),
    cardBag (playLoop fuel s steps).1 = cardBag s := by
  intro fuel
  induction fuel with
  | zero => intro s steps; rfl
  | succ n ih =>
    intro s steps
    unfold playLoop
    by_cases hw : is_won s = true
    · rw [if_pos hw]
    rw [if_neg hw]
    dsimp only
    by_cases h1 : (resolve_forced_moves s).2 = true
    · rw [if_pos h1, ih, resolve_bag]
    rw [if_neg h1]
    by_cases h2 : (draw_from_stock (resolve_forced_moves s).1).2 = true
    · rw [if_pos h2, ih, draw_bag, resolve_bag]
    rw [if_neg h2]
    by_cases h3 :
        (recycle_stock (draw_from_stock (resolve_forced_moves s).1).1).2 = true
    · rw [if_pos h3, ih, recycle_bag, draw_bag, resolve_bag]
    rw [if_neg h3]
    dsimp only
    rw [recycle_bag, draw_bag, resolve_bag]

/-- Popping from the deck splits its card identities. -/
theorem popN_bag :
    ∀ (n : Nat) (deck : List Card),
    bagOf (popN n deck).1 + bagOf (popN n deck).2 = bagOf deck := by
  intro n
  induction n with
  | zero =>
    intro deck
    unfold popN
    rw [show bagOf [] = 0 from rfl]
    abel
  | succ k ih =>
    intro deck
    unfold popN
    cases hc : deck.getLast? with
    | none =>
      rw [show bagOf [] = 0 from rfl]
      abel
    | some c =>
      dsimp only
      have hdecomp : bagOf deck = bagOf deck.dropLast + bagOf [c] := by
        conv_lhs => rw [last_decomp _ _ hc]
        exact bagOf_append _ _
      have hcons : bagOf (c :: (popN k deck.dropLast).1)
          = bagOf [c] + bagOf (popN k deck.dropLast).1 := rfl
      rw [hcons, hdecomp, add_assoc, ih deck.dropLast]
      abel

/-- Setting face flags while building a column keeps the card identities. -/
theorem buildColumn_bag (ci : Nat) :
    ∀ (row : Nat) (cards : List Card),
    bagOf (buildColumn ci row cards) = bagOf cards := by
  intro row cards
  induction cards generalizing row with
  | nil => rfl
  | cons c rest ih =>
    unfold buildColumn
    have hcons1 : bagOf ({ c with face_up := decide (row = ci) } ::
        buildColumn ci (row + 1) rest)
        = bagOf [c] + bagOf (buildColumn ci (row + 1) rest) := rfl
    have hcons2 : bagOf (c :: rest) = bagOf [c] + bagOf rest := rfl
    rw [hcons1, hcons2, ih]

/-- Dealing splits the deck into columns and remainder without changing the
card identities. -/
theorem dealGo_bag :
    ∀ (l : List Nat) (deck : List Card),
    ((dealGo l deck).1.map bagOf).sum + bagOf (dealGo l deck).2
      = bagOf deck := by
  intro l
  induction l with
  | nil =>
    intro deck
    unfold dealGo
    simp
  | cons ci rest ih =>
    intro deck
    unfold dealGo
    dsimp only
    rw [List.map_cons, List.sum_cons, buildColumn_bag, add_assoc,
      ih (popN (ci + 1) deck).2]
    exact popN_bag (ci + 1) deck

/-- `setup` distributes exactly the given deck over tableau and stock. -/
theorem setup_bag (dc : Nat) (pl : Option Nat) (seed : Nat)
    (deck : List Card) :
    cardBag (setup dc pl seed deck) = bagOf deck := by
  unfold setup cardBag
  dsimp only
  have hstock : bagOf ((dealGo (List.range 7) deck).2.map
      (fun c => { c with face_up := false }))
      = bagOf (dealGo (List.range 7) deck).2 := by
    unfold bagOf
    rw [List.map_map]
    rfl
  rw [hstock]
  have hnil : bagOf ([] : List Card) = 0 := rfl
  have hfnil : bagOf (Foundations.all
      { spades := [], hearts := [], clubs := [], diamonds := [] }) = 0 := rfl
  rw [hnil, hfnil, add_zero, add_zero]
  exact dealGo_bag (List.range 7) deck

/-- The standard deck holds 52 cards. -/
theorem standardDeck_card : Multiset.card (bagOf standardDeck) = 52 := by
  rfl

/-! ## Monad reduction lemmas -/

/-- Reduction of a bind on a successful `Except` computation. -/
theorem except_bind_ok {A B : Type} (a : A) (f : A → Except PyErr B) :
    (Except.ok a : Except PyErr A) >>= f = f a := rfl

/-- `pure` on `Except` is `Except.ok`. -/
theorem except_pure_eq {A : Type} (a : A) :
    (pure a : Except PyErr A) = Except.ok a := rfl

/-- `throw` on `Except` is `Except.error`. -/
theorem except_throw_eq {A : Type} (e : PyErr) :
    (throw e : Except PyErr A) = Except.error e := rfl

/-! ## Claims about the rules engine -/

/-- C1 counterexample: with the `STANDARD` profile (limit 3) and a state
recording five passes under the synonym field `stock_passes`, the code finds
no `passes_made` field, defaults to 0 and judges the pass legal, while the
claimed fallback-and-coerce rule judges it illegal. -/
theorem C1_counterexample :
    RuleProfile.is_move_legal STANDARD [("stock_passes", PyVal.int 5)] stockPassMove
      = Except.ok true
    ∧ specStockPassLegal STANDARD [("stock_passes", PyVal.int 5)]
      = Except.ok false := by
  constructor <;> rfl

/-- C1 (amended): `is_move_legal` on a `stock_pass` move reads the state's
pass count from the field `passes_made` only — the synonym fields
`stock_passes`/`pass_count` are not consulted and no defensive coercion is
applied; when `passes_made` is absent it defaults to 0, and the move is
legal iff the pass limit is unlimited or the raw integer value is strictly
less than the limit. -/
theorem C1_stock_pass_reads_passes_made_only
    (p : RuleProfile) (state : PyDict) (lim : Option Int) (n : Int)
    (hl : p.pass_limit = Except.ok lim)
    (hn : get_value_d state "passes_made" (PyVal.int 0) = PyVal.int n) :
    p.is_move_legal state stockPassMove =
      Except.ok (match lim with
                 | Option.none => true
                 | some l => decide (n < l)) := by
  unfold RuleProfile.is_move_legal
  simp only [hl, hn]
  cases lim with
  | none => rfl
  | some l => rfl

/-- C1 witness. -/
theorem C1_witness :
    STANDARD.is_move_legal [("passes_made", PyVal.int 2)] stockPassMove
      = Except.ok true := by
  have h := C1_stock_pass_reads_passes_made_only STANDARD
    [("passes_made", PyVal.int 2)] (some 3) 2 (by rfl) (by rfl)
  simpa using h

/-- C3: a move carrying a `draw_count` different from the profile's `draw`
is illegal regardless of its (string, non-empty) action type; the veto fires
before any action-specific rule, so no action branch can override it. -/
theorem C3_draw_count_veto
    (p : RuleProfile) (state move : PyDict) (a : String)
    (h1 : pyOr (get_value move "type") (get_value move "action") = PyVal.str a)
    (h2 : a ≠ "")
    (h3 : get_value move "draw_count" ≠ PyVal.none)
    (h4 : pyEqInt (get_value move "draw_count") p.draw = false) :
    p.is_move_legal state move = Except.ok false := by
  unfold RuleProfile.is_move_legal
  rw [h1]
  simp [pyTruthy, h2, pyLower, h3, h4, except_bind_ok, except_pure_eq,
    except_throw_eq]

/-- C3 witness: a `supermove` with a mismatched `draw_count` is vetoed. -/
theorem C3_witness :
    STANDARD.is_move_legal []
      [("type", PyVal.str "supermove"), ("draw_count", PyVal.int 1)]
      = Except.ok false := by
  exact C3_draw_count_veto STANDARD []
    [("type", PyVal.str "supermove"), ("draw_count", PyVal.int 1)]
    "supermove" (by rfl) (by decide) (by decide) (by rfl)

/-- C7 counterexample: an unrecognised action type carrying a mismatched
`draw_count` is vetoed, so `is_move_legal` returns `false`, not `true` as
the claim demands for every move with an unrecognised type. -/
theorem C7_counterexample :
    MAX_RELAX.is_move_legal []
      [("type", PyVal.str "custom"), ("draw_count", PyVal.int 2)]
      = Except.ok false := by rfl

/-- C7 (amended): a move whose (case-insensitive) type/action discriminant
is a non-empty string outside the seven recognised action types is legal,
provided it does not carry a `draw_count` disagreeing with the profile's
`draw` (the global draw-count veto still applies to unrecognised types). -/
theorem C7_unrecognised_default_legal
    (p : RuleProfile) (state move : PyDict) (a : String)
    (h1 : pyOr (get_value move "type") (get_value move "action") = PyVal.str a)
    (h2 : a ≠ "")
    (h3 : strLower a ∉ recognisedActions)
    (h4 : get_value move "draw_count" = PyVal.none
          ∨ pyEqInt (get_value move "draw_count") p.draw = true) :
    p.is_move_legal state move = Except.ok true := by
  unfold RuleProfile.is_move_legal
  rw [h1]
  simp only [recognisedActions, List.mem_cons, List.not_mem_nil, or_false,
    not_or] at h3
  obtain ⟨d1, d2, d3, d4, d5, d6, d7⟩ := h3
  rcases h4 with h4 | h4 <;>
    simp [pyTruthy, h2, pyLower, h4, d1, d2, d3, d4, d5, d6, d7,
      except_bind_ok, except_pure_eq, except_throw_eq]

/-- C7 witness. -/
theorem C7_witness :
    MAX_RELAX.is_move_legal [] [("type", PyVal.str "custom")]
      = Except.ok true := by
  exact C7_unrecognised_default_legal MAX_RELAX []
    [("type", PyVal.str "custom")] "custom" (by rfl) (by decide)
    (by decide) (Or.inl (by rfl))

/-- C6: whenever the profile's pass limit normalises successfully,
`passes_remaining` returns `max 0 (limit - passes_made)` with the pass count
defensively coerced; the result is `None` exactly when the limit is
unlimited and is never negative, and boolean, negative or non-numeric pass
counts coerce to 0. -/
theorem C6_passes_remaining_never_negative
    (p : RuleProfile) (state : PyDict) (lim : Option Int)
    (hl : p.pass_limit = Except.ok lim) :
    p.passes_remaining state =
      Except.ok (lim.map (fun l =>
        max 0 (l - coerce_non_negative_int (lookupPassesValue state) 0)))
    ∧ (∀ v, p.passes_remaining state = Except.ok v →
        ((v = Option.none) ↔ lim = Option.none) ∧ ∀ k, v = some k → 0 ≤ k)
    ∧ (∀ b, coerce_non_negative_int (PyVal.bool b) 0 = 0)
    ∧ (∀ m : Int, m < 0 → coerce_non_negative_int (PyVal.int m) 0 = 0)
    ∧ (∀ s, parseInt10 (strStrip s) = Option.none →
        coerce_non_negative_int (PyVal.str s) 0 = 0) := by
  have hmain : p.passes_remaining state =
      Except.ok (lim.map (fun l =>
        max 0 (l - coerce_non_negative_int (lookupPassesValue state) 0))) := by
    unfold RuleProfile.passes_remaining
    simp only [hl, except_bind_ok]
    cases lim with
    | none => rfl
    | some l =>
      have hmax :
          (if l - coerce_non_negative_int (lookupPassesValue state) 0 > 0
           then l - coerce_non_negative_int (lookupPassesValue state) 0
           else 0)
          = max 0 (l - coerce_non_negative_int (lookupPassesValue state) 0) := by
        omega
      simp only [except_pure_eq, Option.map_some']
      rw [← hmax]
  refine ⟨hmain, ?_, ?_, ?_, ?_⟩
  · intro v hv
    rw [hmain] at hv
    have hv2 : v = lim.map (fun l =>
        max 0 (l - coerce_non_negative_int (lookupPassesValue state) 0)) := by
      cases hv
      rfl
    subst hv2
    constructor
    · cases lim <;> simp
    · intro k hk
      cases lim with
      | none => simp at hk
      | some l =>
        simp only [Option.map_some', Option.some.injEq] at hk
        omega
  · intro b
    rfl
  · intro m hm
    simp only [coerce_non_negative_int]
    rw [if_neg (by omega)]
  · intro s hs
    simp [coerce_non_negative_int, hs]

/-- C6 witness. -/
theorem C6_witness :
    STANDARD.passes_remaining [("passes_made", PyVal.int 1)]
      = Except.ok (some 2) := by
  have h := C6_passes_remaining_never_negative STANDARD
    [("passes_made", PyVal.int 1)] (some 3) (by rfl)
  rw [h.1]
  rfl

/-- C4 counterexample: the finite non-negative float `2.5` does not
normalise to `2`; `_normalise_pass_limit` has no float branch, so every
float falls through to the unsupported-type `TypeError`. -/
theorem C4_counterexample :
    normalise_pass_limit (PyVal.float (PyFloat.rat (5 / 2)))
      = Except.error PyErr.typeError
    ∧ normalise_pass_limit (PyVal.float (PyFloat.rat (5 / 2)))
      ≠ Except.ok (some 2) := by
  refine ⟨rfl, ?_⟩
  intro h
  exact Except.noConfusion h

/-- C4 (amended): pass-limit normalisation accepts `None` as unlimited,
named tokens via the lookup table, numeric strings, and integers that are
non-negative; it rejects booleans, floats (including finite non-negative
ones) and all other unsupported types with `TypeError`, and rejects
negative integers, negative numeric strings and unparseable non-blank
strings with `ValueError`. -/
theorem C4_pass_limit_normalisation :
    (normalise_pass_limit PyVal.none = Except.ok Option.none)
    ∧ (∀ b, normalise_pass_limit (PyVal.bool b) = Except.error PyErr.typeError)
    ∧ (∀ f, normalise_pass_limit (PyVal.float f) = Except.error PyErr.typeError)
    ∧ (∀ n : Int, 0 ≤ n → normalise_pass_limit (PyVal.int n) = Except.ok (some n))
    ∧ (∀ n : Int, n < 0 →
        normalise_pass_limit (PyVal.int n) = Except.error PyErr.valueError)
    ∧ (∀ s v, PASS_LIMITS (strLower (strStrip s)) = some v →
        normalise_pass_limit (PyVal.str s) = Except.ok v)
    ∧ (∀ s n, PASS_LIMITS (strLower (strStrip s)) = Option.none →
        parseInt10 (strLower (strStrip s)) = some n → 0 ≤ n →
        normalise_pass_limit (PyVal.str s) = Except.ok (some n))
    ∧ (∀ s n, PASS_LIMITS (strLower (strStrip s)) = Option.none →
        parseInt10 (strLower (strStrip s)) = some n → n < 0 →
        normalise_pass_limit (PyVal.str s) = Except.error PyErr.valueError)
    ∧ (∀ s, strLower (strStrip s) ≠ "" →
        PASS_LIMITS (strLower (strStrip s)) = Option.none →
        parseInt10 (strLower (strStrip s)) = Option.none →
        normalise_pass_limit (PyVal.str s) = Except.error PyErr.valueError) := by
  refine ⟨rfl, fun b => rfl, fun f => rfl, ?_, ?_, ?_, ?_, ?_, ?_⟩
  · intro n hn
    simp only [normalise_pass_limit]
    rw [if_neg (by omega)]
  · intro n hn
    simp only [normalise_pass_limit]
    rw [if_pos hn]
  · intro s v hv
    have hne : strLower (strStrip s) ≠ "" := by
      intro h
      rw [h] at hv
      exact Option.noConfusion hv
    simp [normalise_pass_limit, hne, hv]
  · intro s n hlook hparse hn
    have hne : strLower (strStrip s) ≠ "" := by
      intro h
      rw [h] at hparse
      exact Option.noConfusion hparse
    simp [normalise_pass_limit, hne, hlook, hparse]
    omega
  · intro s n hlook hparse hn
    have hne : strLower (strStrip s) ≠ "" := by
      intro h
      rw [h] at hparse
      exact Option.noConfusion hparse
    simp [normalise_pass_limit, hne, hlook, hparse]
    omega
  · intro s hne hlook hparse
    simp [normalise_pass_limit, hne, hlook, hparse]

/-- C4 witness. -/
theorem C4_witness :
    normalise_pass_limit (PyVal.int 7) = Except.ok (some 7)
    ∧ normalise_pass_limit (PyVal.str " Three") = Except.ok (some 3)
    ∧ normalise_pass_limit (PyVal.str "-2") = Except.error PyErr.valueError
    ∧ normalise_pass_limit (PyVal.str "bogus") = Except.error PyErr.valueError := by
  refine ⟨C4_pass_limit_normalisation.2.2.2.1 7 (by decide),
    C4_pass_limit_normalisation.2.2.2.2.2.1 " Three" (some 3) (by rfl),
    C4_pass_limit_normalisation.2.2.2.2.2.2.2.1 "-2" (-2) (by rfl) (by rfl)
      (by decide),
    C4_pass_limit_normalisation.2.2.2.2.2.2.2.2 "bogus" (by decide) (by rfl)
      (by rfl)⟩

/-- C5: serialisation round-trips: `from_json (to_json P) = P` for each of
the four canonical presets, and `from_dict` reproduces any profile from its
`to_dict` mapping extended with arbitrary unknown extra keys, since only
the seven recognised field names are extracted. -/
theorem C5_serialisation_round_trip :
    (RuleProfile.from_json (RuleProfile.to_json MAX_RELAX) = some MAX_RELAX)
    ∧ (RuleProfile.from_json (RuleProfile.to_json FRIENDLY_APP)
        = some FRIENDLY_APP)
    ∧ (RuleProfile.from_json (RuleProfile.to_json STANDARD) = some STANDARD)
    ∧ (RuleProfile.from_json (RuleProfile.to_json XRAY) = some XRAY)
    ∧ (∀ (p : RuleProfile) (extra : PyDict),
        (∀ kv ∈ extra, kv.1 ∉ ruleProfileFields) →
        RuleProfile.from_dict (p.to_dict ++ extra) = some p) := by
  refine ⟨rfl, rfl, rfl, rfl, ?_⟩
  intro p extra hextra
  rfl

/-- C5 witness. -/
theorem C5_witness :
    RuleProfile.from_dict
      (STANDARD.to_dict ++ [("color_scheme", PyVal.str "dark")])
      = some STANDARD := by
  exact C5_serialisation_round_trip.2.2.2.2 STANDARD
    [("color_scheme", PyVal.str "dark")] (by decide)

/-- C2 counterexample: in `c2State` the claim's rule licenses moving the
lone 7 of hearts onto the non-empty column holding the 8 of spades, but
the solver's scan takes no move at all — a non-empty destination also
requires a hidden card in the source column. -/
theorem C2_counterexample :
    specT2TLegal c2State 0 1 = true
    ∧ try_move_tableau_to_tableau c2State = (c2State, false) := by
  constructor
  · rfl
  · rfl

/-- C2 (amended): every move reported by the tableau-to-tableau scan has
valid distinct indices, a run starting at the source column's first face-up
card, a destination whose top accepts the run's base, at least one hidden
card beneath the run in the source column (required for non-empty and empty
destinations alike), and — when the destination is empty — a King as the
run's base; the first such match in index order is performed. -/
theorem C2_tableau_to_tableau_conditions (s : SolverState) (src fi dest : Nat)
    (h : findTableauMove s = some (src, fi, dest)) :
    src < s.tableau.length ∧ dest < s.tableau.length ∧ dest ≠ src ∧
    firstFaceUpIdx (s.tableau.getD src []) = some fi ∧ 0 < fi ∧
    (∃ hd, ((s.tableau.getD src []).drop fi).head? = some hd ∧
      can_stack_on_tableau hd (s.tableau.getD dest []) = true ∧
      ((s.tableau.getD dest []).isEmpty = true → hd.rank = 13)) ∧
    try_move_tableau_to_tableau s = (move_stack s src fi dest, true) := by
  obtain ⟨hsrc, hdest, hffu, hd, hhd, hok⟩ :=
    findTableauMove_spec s src fi dest h
  obtain ⟨hne, hcan, hhh, hking⟩ := t2tDestOk_spec s src hd _ dest hok
  refine ⟨hsrc, hdest, hne, hffu, of_decide_eq_true hhh,
    ⟨hd, hhd, hcan, hking⟩, ?_⟩
  unfold try_move_tableau_to_tableau
  rw [h]

/-- C2 witness. -/
theorem C2_witness : (0 : Nat) < c2WitnessState.tableau.length :=
  (C2_tableau_to_tableau_conditions c2WitnessState 0 1 1 (by rfl)).1

/-- C8: `play` with step cap `N` runs at most `N` iterations of the outer
game loop — the returned `steps` field never exceeds `N` (and `play` is a
total function, so it always terminates). -/
theorem C8_play_step_cap (s : SolverState) (N : Nat) :
    (play s N).steps ≤ N := by
  have h := playLoop_steps N s 0
  simpa [play] using h

/-- C9: card conservation — every solver operation (the four forced moves,
drawing, recycling, a valid stack move, forced-move resolution and the full
play loop) preserves the multiset of (rank, suit) card identities across
tableau, stock, waste and foundations; `setup` distributes exactly the
given deck, and the default deck holds 52 cards. -/
theorem C9_card_conservation :
    (∀ s, cardBag (try_promote_waste_to_foundation s).1 = cardBag s)
    ∧ (∀ s, cardBag (try_promote_tableau_to_foundation s).1 = cardBag s)
    ∧ (∀ s, cardBag (try_move_waste_to_tableau s).1 = cardBag s)
    ∧ (∀ s, cardBag (try_move_tableau_to_tableau s).1 = cardBag s)
    ∧ (∀ s, cardBag (draw_from_stock s).1 = cardBag s)
    ∧ (∀ s, cardBag (recycle_stock s).1 = cardBag s)
    ∧ (∀ (s : SolverState) (src fi dest : Nat), src < s.tableau.length →
        dest < s.tableau.length → dest ≠ src →
        cardBag (move_stack s src fi dest) = cardBag s)
    ∧ (∀ s, cardBag (resolve_forced_moves s).1 = cardBag s)
    ∧ (∀ s N, cardBag (playLoop N s 0).1 = cardBag s)
    ∧ (∀ dc pl seed deck, cardBag (setup dc pl seed deck) = bagOf deck)
    ∧ Multiset.card (bagOf standardDeck) = 52 :=
  ⟨promoteWaste_bag, promoteTableau_bag, wasteToTableau_bag,
   tableauToTableau_bag, draw_bag, recycle_bag, move_stack_bag, resolve_bag,
   fun s N => playLoop_bag N s 0, setup_bag, standardDeck_card⟩

/-- C9 witness. -/
theorem C9_witness :
    cardBag (move_stack c2WitnessState 0 1 1) = cardBag c2WitnessState :=
  C9_card_conservation.2.2.2.2.2.2.1 c2WitnessState 0 1 1 (by decide)
    (by decide) (by decide)

/-- C10: the forced-move loop terminates on every state — each successful
forced move strictly decreases (face-down cards) + (waste size) + (cards
not on foundations), and the state `resolve_forced_moves` returns admits no
further forced move, the exact exit condition of the source's `while True`
loop. -/
theorem C10_resolve_forced_moves_terminates :
    (∀ s s', forcedStep s = some s' → forcedMeasure s' < forcedMeasure s)
    ∧ (∀ s, forcedStep (resolve_forced_moves s).1 = Option.none) :=
  ⟨forcedStep_measure_lt, resolve_forced_moves_fixpoint⟩

/-- C10 witness. -/
theorem C10_witness :
    forcedMeasure ((forcedStep c10State).getD c10State)
      < forcedMeasure c10State :=
  C10_resolve_forced_moves_terminates.1 c10State
    ((forcedStep c10State).getD c10State) (by rfl)
